import Mathlib

/-!
Verification of the URL-shortener core (code generation, cache consistency,
lookup resolution) against its natural-language specification.

The durable store (PostgreSQL table `urls`) is embedded as a list of records;
SQL queries become list operations on it.  The Redis cache is embedded as a
list of keyed entries with absolute expiry instants.  Timestamps are natural
numbers (seconds).  Randomness (crypto.randomBytes, Math.random, nanoid) is
passed in explicitly as byte lists / index streams.  JavaScript exceptions are
embedded as `Except String`.
-/

namespace UrlShortener

/-- A row of the `urls` table (src/config/database.js, schema). -/
structure UrlRecord where
  id : Nat
  long_url : String
  short_code : String
  clicks : Nat
  created_at : Nat
  expires_at : Option Nat
  is_active : Bool
  creator_ip : Option String
  last_accessed : Option Nat
  is_custom_alias : Bool
deriving Repr, DecidableEq

/-- SQL condition `expires_at IS NULL OR expires_at > NOW()`. -/
def expiresOk (now : Nat) (r : UrlRecord) : Bool :=
  match r.expires_at with
  | none => true
  | some e => now < e

/-- JS condition `url.expires_at && new Date(url.expires_at) < new Date()`. -/
def expiredStrict (now : Nat) (r : UrlRecord) : Bool :=
  match r.expires_at with
  | none => false
  | some e => e < now

/-- Substring test on char lists (used to embed regex substring matches). -/
def startsWithChars : List Char → List Char → Bool
  | [], _ => true
  | _ :: _, [] => false
  | p :: ps, c :: cs => p = c && startsWithChars ps cs

/-- Whether `pat` occurs as a contiguous sublist of the second argument. -/
def containsChars (pat : List Char) : List Char → Bool
  | [] => startsWithChars pat []
  | c :: cs => startsWithChars pat (c :: cs) || containsChars pat cs

/-- String substring test. -/
def strContains (s pat : String) : Bool :=
  containsChars pat.data s.data

/-- JavaScript whitespace for `String.prototype.trim`. -/
def isWs (c : Char) : Bool :=
  c = ' ' || c = '\t' || c = '\n' || c = '\r'

/-- Embedding of `String.prototype.trim`: strip leading and trailing whitespace. -/
def strTrim (s : String) : String :=
  String.mk (((s.data.dropWhile isWs).reverse.dropWhile isWs).reverse)

/-- ASCII lowering of one character (`String.prototype.toLowerCase` on the
ASCII range). -/
def charLower (c : Char) : Char :=
  if 'A' ≤ c && c ≤ 'Z' then Char.ofNat (c.toNat + 32) else c

/-- Embedding of `String.prototype.toLowerCase` (ASCII range). -/
def strLower (s : String) : String :=
  String.mk (s.data.map charLower)

namespace Url

/-- Embedding of `Url.create` (src/models/Url.js 4-32): INSERT with the store-level UNIQUE
constraint on `short_code`; a violation (SQLSTATE 23505) is rethrown as
"alias already exists".  The fresh row gets `clicks = 0`, `is_active = TRUE`
(column default) and `created_at = NOW()`. -/
def create (now : Nat) (store : List UrlRecord) (longUrl shortCode : String)
    (expiresAt : Option Nat) (creatorIp : Option String) (isCustomAlias : Bool) :
    Except String (UrlRecord × List UrlRecord) :=
  if store.any (fun r => r.short_code = shortCode) then
    .error "alias already exists"
  else
    let r : UrlRecord :=
      { id := store.length + 1
        long_url := longUrl
        short_code := shortCode
        clicks := 0
        created_at := now
        expires_at := expiresAt
        is_active := true
        creator_ip := creatorIp
        last_accessed := none
        is_custom_alias := isCustomAlias }
    .ok (r, store ++ [r])

/-- Embedding of `Url.findByLongUrl` (src/models/Url.js 34-39):
`SELECT * FROM urls WHERE long_url = $1 AND (expires_at IS NULL OR
expires_at > NOW()) AND is_active = TRUE`, first row. -/
def findByLongUrl (now : Nat) (store : List UrlRecord) (longUrl : String) :
    Option UrlRecord :=
  store.find? (fun r => r.long_url = longUrl && expiresOk now r && r.is_active)

/-- Embedding of `Url.findByShortCode` (src/models/Url.js 41-45):
`SELECT * FROM urls WHERE short_code = $1`, first row; no filter on
`is_active` or `expires_at`. -/
def findByShortCode (store : List UrlRecord) (shortCode : String) :
    Option UrlRecord :=
  store.find? (fun r => r.short_code = shortCode)

/-- Embedding of `Url.incrementClicks` (src/models/Url.js 47-59):
`UPDATE urls SET clicks = clicks + 1, last_accessed = NOW() WHERE
short_code = $1 AND is_active = TRUE AND (expires_at IS NULL OR
expires_at > NOW())`. -/
def incrementClicks (now : Nat) (store : List UrlRecord) (shortCode : String) :
    List UrlRecord :=
  store.map fun r =>
    if r.short_code = shortCode && r.is_active && expiresOk now r then
      { r with clicks := r.clicks + 1, last_accessed := some now }
    else r

/-- The columns selected by `Url.getStats` (src/models/Url.js 61-77). -/
structure StatsRow where
  short_code : String
  long_url : String
  clicks : Nat
  created_at : Nat
  expires_at : Option Nat
  last_accessed : Option Nat
  is_custom_alias : Bool
deriving Repr, DecidableEq

/-- Projection of a row onto the stats columns. -/
def statsOf (r : UrlRecord) : StatsRow :=
  { short_code := r.short_code
    long_url := r.long_url
    clicks := r.clicks
    created_at := r.created_at
    expires_at := r.expires_at
    last_accessed := r.last_accessed
    is_custom_alias := r.is_custom_alias }

/-- Embedding of `Url.getStats` (src/models/Url.js 61-77): point lookup by `short_code`
with no condition on `is_active` or `expires_at`. -/
def getStats (store : List UrlRecord) (shortCode : String) : Option StatsRow :=
  (store.find? (fun r => r.short_code = shortCode)).map statsOf

/-- Embedding of `Url.deactivateExpiredUrls` (src/models/Url.js 79-89):
`UPDATE urls SET is_active = FALSE WHERE expires_at < NOW() AND
is_active = TRUE RETURNING short_code`. -/
def deactivateExpiredUrls (now : Nat) (store : List UrlRecord) :
    List String × List UrlRecord :=
  ((store.filter (fun r => expiredStrict now r && r.is_active)).map
      (fun r => r.short_code),
    store.map fun r =>
      if expiredStrict now r && r.is_active then { r with is_active := false }
      else r)

/-- Embedding of `Url.deleteExpiredUrls` (src/models/Url.js 109-121).  The
DELETE statement is never executed: its text reads
`expires_at < NOW() - INTERVAL $1` (and likewise for `created_at`), and
PostgreSQL does not accept a bind parameter inside an `INTERVAL` literal,
so `pgPool.query` rejects with a syntax error at parse time, before any row
is touched.  The error code is not 23505, so the function rethrows it
unchanged.  The table therefore stays exactly as it was, paired here with
the thrown error. -/
def deleteExpiredUrls (_now _retention : Nat) (store : List UrlRecord) :
    List UrlRecord × Except String (List String) :=
  (store, .error "syntax error at or near $1")

/-- Embedding of `Url.isUrlMalicious` (src/models/Url.js 91-95): case-insensitive
substring match against the fixed denylist /phish/i, /malware/i, /hack/i,
/scam/i. -/
def isUrlMalicious (longUrl : String) : Bool :=
  ["phish", "malware", "hack", "scam"].any fun p =>
    strContains (strLower longUrl) p

end Url

/-- A live Redis key: set at some instant with `EX` seconds, it answers GET
while `now < expireAt`. -/
structure CacheEntry where
  code : String
  url : String
  expireAt : Nat
deriving Repr, DecidableEq

/-- System state threaded through the service: the `urls` table, the Redis
keyspace, and `redisClient.isReady`. -/
structure SysState where
  store : List UrlRecord
  cache : List CacheEntry
  redisReady : Bool
deriving Repr, DecidableEq

/-- Embedding of `redisClient.get`: value of the first live entry for the key. -/
def redisGet (now : Nat) (cache : List CacheEntry) (code : String) :
    Option String :=
  (cache.find? (fun e => e.code = code && now < e.expireAt)).map
    (fun e => e.url)

/-- Embedding of `redisClient.set(code, url, { EX: ex })`: overwrite the key, expiring
`ex` seconds from now. -/
def redisSet (now : Nat) (cache : List CacheEntry) (code url : String)
    (ex : Nat) : List CacheEntry :=
  ⟨code, url, now + ex⟩ :: cache.filter (fun e => !(e.code = code))

/-- Embedding of `redisClient.del`. -/
def redisDel (cache : List CacheEntry) (code : String) : List CacheEntry :=
  cache.filter (fun e => !(e.code = code))

/-- Modelled from the spec: `src/utils/urlValidator.js` is required by the
service but is not among the sources.  Spec 4.3 step 1: "Normalize: trim,
prepend `https://` if no scheme present". -/
def sanitizeUrl (u : String) : String :=
  let t := strTrim u
  if strContains t "://" then t else "https://" ++ t

/-- Modelled from the spec: `src/utils/urlValidator.js` is required by the
service but is not among the sources.  Spec 4.3 step 1: "Reject malformed
URLs (`InvalidUrl`)"; a URL is taken to be malformed when it is blank or
contains whitespace. -/
def isValidUrl (u : String) : Bool :=
  let t := strTrim u
  !t.data.isEmpty && t.data.all (fun c => !(c = ' '))

/-- Options object of `UrlService.shortenUrl`. -/
structure ShortenOptions where
  expiresIn : Option Nat := none
  creatorIp : Option String := none
  customAlias : Option String := none

/-- Embedding of `let expiresAt = null; if (expiresIn) { expiresAt = now + expiresIn }` —
JavaScript treats 0 as falsy. -/
def computeExpiresAt (now : Nat) (expiresIn : Option Nat) : Option Nat :=
  match expiresIn with
  | some n => if n = 0 then none else some (now + n)
  | none => none

/-- Cache TTL `expiresIn || 3600` used by both write-through sites. -/
def cacheEx (expiresIn : Option Nat) : Nat :=
  match expiresIn with
  | some n => if n = 0 then 3600 else n
  | none => 3600

/-- Result object of `UrlService.shortenUrl`. -/
structure ShortenResult where
  shortCode : String
  isCustomAlias : Bool
deriving Repr, DecidableEq

namespace UrlService

/-- Embedding of `UrlService.isValidAlias`: the regex `^[a-zA-Z0-9_-]{3,30}$`. -/
def isAliasChar (c : Char) : Bool :=
  (('a' ≤ c && c ≤ 'z') || ('A' ≤ c && c ≤ 'Z') || ('0' ≤ c && c ≤ '9')
    || c = '_' || c = '-')

/-- Embedding of `UrlService.isValidAlias` (services/urlService.js 97-100). -/
def isValidAlias (a : String) : Bool :=
  3 ≤ a.length && a.length ≤ 30 && a.data.all isAliasChar

/-- Embedding of `UrlService.isReservedAlias` (services/urlService.js 102-117):
case-insensitive membership in the fixed reserved list. -/
def isReservedAlias (a : String) : Bool :=
  ["api", "admin", "shorten", "stats", "health", "login", "register",
    "dashboard", "settings", "help", "about"].any fun w => strLower a = w

/-- Embedding of `UrlService.shortenUrl` (services/urlService.js 6-95).  `genCode` is the
candidate produced by the single call to `generateSecureShortCode()`; the
service makes exactly one such call. -/
def shortenUrl (now : Nat) (genCode : String) (s : SysState)
    (longUrl : String) (o : ShortenOptions) :
    Except String (ShortenResult × SysState) :=
  if !isValidUrl longUrl then .error "Invalid URL format"
  else
    let sanitizedUrl := sanitizeUrl longUrl
    if Url.isUrlMalicious sanitizedUrl then
      .error "URL has been flagged as potentially malicious"
    else
      match o.customAlias with
      | some ca =>
        if !isValidAlias ca then .error "invalid alias format"
        else if isReservedAlias ca then .error "reserved alias"
        else
          match Url.findByShortCode s.store ca with
          | some _ => .error "alias already exists"
          | none =>
            match Url.create now s.store sanitizedUrl ca
                (computeExpiresAt now o.expiresIn) o.creatorIp true with
            | .error e => .error e
            | .ok (_, store') =>
              let cache' :=
                if s.redisReady then
                  redisSet now s.cache ca sanitizedUrl (cacheEx o.expiresIn)
                else s.cache
              .ok (⟨ca, true⟩, { s with store := store', cache := cache' })
      | none =>
        match Url.findByLongUrl now s.store sanitizedUrl with
        | some existing => .ok (⟨existing.short_code, false⟩, s)
        | none =>
          match Url.create now s.store sanitizedUrl genCode
              (computeExpiresAt now o.expiresIn) o.creatorIp false with
          | .error e => .error e
          | .ok (_, store') =>
            let cache' :=
              if s.redisReady then
                redisSet now s.cache genCode sanitizedUrl (cacheEx o.expiresIn)
              else s.cache
            .ok (⟨genCode, false⟩, { s with store := store', cache := cache' })

/-- Cache population step of the database branch of `getLongUrl`
(services/urlService.js 156-171): write through with the remaining TTL
`expires_at - now` when positive, the default 3600 when there is no expiry,
and leave the cache alone otherwise. -/
def dbCache (now : Nat) (s : SysState) (shortCode : String) (r : UrlRecord) :
    List CacheEntry :=
  if s.redisReady then
    match r.expires_at with
    | some e =>
      if now < e then redisSet now s.cache shortCode r.long_url (e - now)
      else s.cache
    | none => redisSet now s.cache shortCode r.long_url 3600
  else s.cache

/-- Database branch of `UrlService.getLongUrl` (services/urlService.js
142-174): point lookup, the three NotFound conditions, cache population
with the remaining TTL, synchronous click increment. -/
def getLongUrlDb (now : Nat) (s : SysState) (shortCode : String) :
    Option String × SysState :=
  match Url.findByShortCode s.store shortCode with
  | none => (none, s)
  | some r =>
    if expiredStrict now r then (none, s)
    else if !r.is_active then (none, s)
    else
      (some r.long_url,
        { s with store := Url.incrementClicks now s.store shortCode,
                 cache := dbCache now s shortCode r })

/-- Embedding of `UrlService.getLongUrl` (services/urlService.js 119-179).  On a cache hit
(a truthy cached value) the cached URL is returned at once and the click
increment is fired without any validity check; otherwise the database branch
runs. -/
def getLongUrl (now : Nat) (s : SysState) (shortCode : String) :
    Except String (Option String × SysState) :=
  if shortCode.length < 3 then .error "Invalid short code"
  else
    match (if s.redisReady then redisGet now s.cache shortCode else none) with
    | some u =>
      if u = "" then .ok (getLongUrlDb now s shortCode)
      else
        .ok (some u,
          { s with store := Url.incrementClicks now s.store shortCode })
    | none => .ok (getLongUrlDb now s shortCode)

/-- Embedding of `UrlService.getUrlStats` (services/urlService.js 181-193): reject a
falsy (empty) code, otherwise a direct store read with no cache involvement. -/
def getUrlStats (s : SysState) (shortCode : String) :
    Except String (Option Url.StatsRow) :=
  if shortCode = "" then .error "Invalid short code"
  else .ok (Url.getStats s.store shortCode)

/-- Embedding of `UrlService.cleanupExpiredUrls` (services/urlService.js 195-211):
deactivation sweep, then best-effort cache eviction of the swept codes. -/
def cleanupExpiredUrls (now : Nat) (s : SysState) : Nat × SysState :=
  let (codes, store') := Url.deactivateExpiredUrls now s.store
  let cache' :=
    if s.redisReady && 0 < codes.length then
      codes.foldl redisDel s.cache
    else s.cache
  (codes.length, { s with store := store', cache := cache' })

end UrlService

/-! ### Code generators (src/utils/shortCodeGenerator.js, src/config/database.js) -/

/-- Embedding of `SAFE_ALPHABET` (src/utils/shortCodeGenerator.js 4-5): 57 symbols,
excluding `0`, `O`, `1`, `l`, `I`. -/
def SAFE_ALPHABET : String :=
  "23456789ABCDEFGHJKLMNPQRSTUVWXYZabcdefghijkmnopqrstuvwxyz"

/-- Embedding of `SAFE_ALPHABET.charAt(k)` for in-range `k`. -/
def safeCharAt (k : Nat) : Char :=
  SAFE_ALPHABET.data.getD k '?'

/-- Modelled from the nanoid library contract used by `generateShortCode`
(src/utils/shortCodeGenerator.js 7-16): `customAlphabet(SAFE_ALPHABET, 7)`
produces, from a stream `r` of secure random indices, a string of `len`
characters of the alphabet. -/
def generateShortCode (r : Nat → Fin 57) (len : Nat) : String :=
  String.mk ((List.range len).map fun i => safeCharAt (r i))

/-- UTF-8 encoding of one scalar value (what `crypto.update` applies to the
input string). -/
def utf8EncodeCharNat (c : Char) : List Nat :=
  let n := c.toNat
  if n < 128 then [n]
  else if n < 2048 then [192 + n / 64, 128 + n % 64]
  else if n < 65536 then
    [224 + n / 4096, 128 + n / 64 % 64, 128 + n % 64]
  else
    [240 + n / 262144, 128 + n / 4096 % 64, 128 + n / 64 % 64, 128 + n % 64]

/-- UTF-8 bytes of a string, as naturals below 256. -/
def utf8Bytes (s : String) : List Nat :=
  (s.data.map utf8EncodeCharNat).flatten

/-- The modulus of MD5 word arithmetic, 2 ^ 32. -/
def M32 : Nat := 4294967296

/-- Bitwise complement within 32 bits (argument assumed < 2 ^ 32). -/
def not32 (x : Nat) : Nat := (M32 - 1) - x

/-- Left rotation of a 32-bit word (argument assumed < 2 ^ 32, `s ≤ 32`). -/
def rotl32 (x s : Nat) : Nat :=
  (x % 2 ^ (32 - s)) * 2 ^ s + x / 2 ^ (32 - s)

/-- The 64 MD5 sine-derived round constants `⌊2^32 |sin (i+1)|⌋` (RFC 1321). -/
def md5K : List Nat :=
  [3614090360, 3905402710, 606105819, 3250441966, 4118548399, 1200080426,
   2821735955, 4249261313, 1770035416, 2336552879, 4294925233, 2304563134,
   1804603682, 4254626195, 2792965006, 1236535329, 4129170786, 3225465664,
   643717713, 3921069994, 3593408605, 38016083, 3634488961, 3889429448,
   568446438, 3275163606, 4107603335, 1163531501, 2850285829, 4243563512,
   1735328473, 2368359562, 4294588738, 2272392833, 1839030562, 4259657740,
   2763975236, 1272893353, 4139469664, 3200236656, 681279174, 3936430074,
   3572445317, 76029189, 3654602809, 3873151461, 530742520, 3299628645,
   4096336452, 1126891415, 2878612391, 4237533241, 1700485571, 2399980690,
   4293915773, 2240044497, 1873313359, 4264355552, 2734768916, 1309151649,
   4149444226, 3174756917, 718787259, 3951481745]

/-- The MD5 per-round shift amounts (RFC 1321). -/
def md5S : List Nat :=
  [7, 12, 17, 22, 7, 12, 17, 22, 7, 12, 17, 22, 7, 12, 17, 22,
   5, 9, 14, 20, 5, 9, 14, 20, 5, 9, 14, 20, 5, 9, 14, 20,
   4, 11, 16, 23, 4, 11, 16, 23, 4, 11, 16, 23, 4, 11, 16, 23,
   6, 10, 15, 21, 6, 10, 15, 21, 6, 10, 15, 21, 6, 10, 15, 21]

/-- MD5 padding: append `0x80`, zero fill to 56 mod 64, then the 64-bit
little-endian bit length. -/
def md5Pad (msg : List Nat) : List Nat :=
  let L := msg.length
  let k := (119 - L % 64) % 64
  msg ++ [128] ++ List.replicate k 0 ++
    ((List.range 8).map fun i => 8 * L / 2 ^ (8 * i) % 256)

/-- Little-endian 32-bit word `j` of block `b` of the padded message. -/
def md5WordAt (padded : List Nat) (b j : Nat) : Nat :=
  padded.getD (64 * b + 4 * j) 0 + 256 * padded.getD (64 * b + 4 * j + 1) 0 +
    65536 * padded.getD (64 * b + 4 * j + 2) 0 +
    16777216 * padded.getD (64 * b + 4 * j + 3) 0

/-- One MD5 round `i` on state `(a, b, c, d)` with message words `w`. -/
def md5Round (w : Nat → Nat) (st : Nat × Nat × Nat × Nat) (i : Nat) :
    Nat × Nat × Nat × Nat :=
  let (a, b, c, d) := st
  let f :=
    if i < 16 then (b &&& c) ||| (not32 b &&& d)
    else if i < 32 then (d &&& b) ||| (not32 d &&& c)
    else if i < 48 then b ^^^ c ^^^ d
    else c ^^^ (b ||| not32 d)
  let g :=
    if i < 16 then i
    else if i < 32 then (5 * i + 1) % 16
    else if i < 48 then (3 * i + 5) % 16
    else 7 * i % 16
  let tmp := (a + f + md5K.getD i 0 + w g) % M32
  (d, (b + rotl32 tmp (md5S.getD i 0)) % M32, b, c)

/-- MD5 compression of one 512-bit block into the running state. -/
def md5Block (w : Nat → Nat) (h : Nat × Nat × Nat × Nat) :
    Nat × Nat × Nat × Nat :=
  let (a, b, c, d) := (List.range 64).foldl (md5Round w) h
  ((h.1 + a) % M32, (h.2.1 + b) % M32, (h.2.2.1 + c) % M32, (h.2.2.2 + d) % M32)

/-- The four little-endian bytes of a 32-bit word. -/
def leBytes (x : Nat) : List Nat :=
  [x % 256, x / 256 % 256, x / 65536 % 256, x / 16777216 % 256]

/-- MD5 digest (RFC 1321) of a byte sequence, as 16 bytes. -/
def md5Digest (msg : List Nat) : List Nat :=
  let padded := md5Pad msg
  let h :=
    (List.range (padded.length / 64)).foldl
      (fun h b => md5Block (md5WordAt padded b) h)
      (1732584193, 4023233417, 2562383102, 271733878)
  leBytes h.1 ++ leBytes h.2.1 ++ leBytes h.2.2.1 ++ leBytes h.2.2.2

/-- Lowercase hex digit. -/
def hexDigit (n : Nat) : Char := "0123456789abcdef".data.getD n '?'

/-- Embedding of `crypto.createHash("md5").update(s).digest("hex")`. -/
def md5hex (s : String) : String :=
  String.mk (((md5Digest (utf8Bytes s)).map fun b =>
    [hexDigit (b / 16), hexDigit (b % 16)]).flatten)

/-- Numeric value of a hex digit character (as used by `parseInt(-, 16)`). -/
def hexVal (c : Char) : Nat :=
  if '0' ≤ c && c ≤ '9' then c.toNat - 48
  else if 'a' ≤ c && c ≤ 'f' then c.toNat - 87
  else if 'A' ≤ c && c ≤ 'F' then c.toNat - 55
  else 0

/-- Embedding of `parseInt(s, 16)` on a string of hex digits. -/
def parseIntHex (s : String) : Nat :=
  s.data.foldl (fun acc c => 16 * acc + hexVal c) 0

/-- The base-conversion loop of `generateConsistentShortCode`
(src/utils/shortCodeGenerator.js 32-35): prepend `value % 57` digits while
the code is shorter than `fuel` and the value is positive. -/
def baseDigits : Nat → Nat → List Char
  | 0, _ => []
  | _ + 1, 0 => []
  | fuel + 1, v + 1 => baseDigits fuel ((v + 1) / 57) ++ [safeCharAt ((v + 1) % 57)]

/-- The `Math.random` padding loop of `generateConsistentShortCode`
(src/utils/shortCodeGenerator.js 37-40): each step prepends a fresh random
alphabet character, so after `k` steps the last-drawn index comes first. -/
def padChars (rand : Nat → Fin 57) (k : Nat) : List Char :=
  (List.range k).reverse.map fun i => safeCharAt (rand i)

/-- Embedding of `generateConsistentShortCode` (src/utils/shortCodeGenerator.js 23-43):
base-57 conversion (the base is the alphabet length) of the first ten hex digits of the MD5 of the URL,
padded to `len` characters with `Math.random` draws `rand`, truncated to
`len`. -/
def generateConsistentShortCode (rand : Nat → Fin 57) (longUrl : String)
    (len : Nat) : String :=
  let hash := md5hex longUrl
  let decimal := parseIntHex (String.mk (hash.data.take 10))
  let digits := baseDigits len decimal
  String.mk ((padChars rand (len - digits.length) ++ digits).take len)

/-- Standard base64 digit. -/
def b64Char (n : Nat) : Char :=
  "ABCDEFGHIJKLMNOPQRSTUVWXYZabcdefghijklmnopqrstuvwxyz0123456789+/".data.getD
    n '?'

/-- Embedding of `Buffer.toString("base64")` on a byte list (with `=` padding). -/
def base64Encode : List Nat → List Char
  | [] => []
  | [b1] => [b64Char (b1 / 4), b64Char (b1 % 4 * 16), '=', '=']
  | [b1, b2] =>
    [b64Char (b1 / 4), b64Char (b1 % 4 * 16 + b2 / 16), b64Char (b2 % 16 * 4),
      '=']
  | b1 :: b2 :: b3 :: rest =>
    b64Char (b1 / 4) :: b64Char (b1 % 4 * 16 + b2 / 16) ::
      b64Char (b2 % 16 * 4 + b3 / 64) :: b64Char (b3 % 64) :: base64Encode rest

/-- The two `replace` calls of `generateSecureShortCode`: `+` to `-` and `/`
to `_`. -/
def b64UrlChar (c : Char) : Char :=
  if c = '+' then '-' else if c = '/' then '_' else c

/-- Embedding of `generateSecureShortCode` (src/config/database.js 116-124), the generator
called by `UrlService.shortenUrl`: base64 of `bytes` (the
`crypto.randomBytes(Math.ceil(len * 3 / 4))` draw), `+` and `/` replaced by
`-` and `_`, `=` removed, truncated to `len`. -/
def generateSecureShortCode (bytes : List Nat) (len : Nat) : String :=
  String.mk
    ((((base64Encode bytes).map b64UrlChar).filter
      (fun c => !(c = '='))).take len)

/-! ### Helper lemmas -/

/-- A list lookup with default either hits an element or yields the default. -/
theorem getD_mem_or {α : Type} (l : List α) (n : Nat) (d : α) :
    l.getD n d ∈ l ∨ l.getD n d = d := by
  induction l generalizing n with
  | nil => right; simp [List.getD]
  | cons a t ih =>
    cases n with
    | zero => left; simp [List.getD]
    | succ m =>
      rcases ih m with h | h
      · left
        simpa [List.getD] using List.mem_cons_of_mem a (by simpa [List.getD] using h)
      · right; simpa [List.getD] using h

/-- Every in-range index lands in the safe alphabet. -/
theorem safeCharAt_mem : ∀ k, k < 57 → safeCharAt k ∈ SAFE_ALPHABET.data := by
  decide

/-- The base-conversion loop emits at most `fuel` characters. -/
theorem baseDigits_length_le : ∀ fuel v : Nat, (baseDigits fuel v).length ≤ fuel
  | 0, _ => by simp [baseDigits]
  | _ + 1, 0 => by simp [baseDigits]
  | fuel + 1, v + 1 => by
    have := baseDigits_length_le fuel ((v + 1) / 57)
    simp only [baseDigits, List.length_append, List.length_singleton]
    omega

/-- The base-conversion loop emits only safe-alphabet characters. -/
theorem baseDigits_mem : ∀ fuel v : Nat, ∀ c ∈ baseDigits fuel v,
    c ∈ SAFE_ALPHABET.data
  | 0, _ => by simp [baseDigits]
  | _ + 1, 0 => by simp [baseDigits]
  | fuel + 1, v + 1 => by
    intro c hc
    rcases (by simpa [baseDigits] using hc :
        c ∈ baseDigits fuel ((v + 1) / 57) ∨ c = safeCharAt ((v + 1) % 57)) with
      h | h
    · exact baseDigits_mem fuel ((v + 1) / 57) c h
    · exact h ▸ safeCharAt_mem _ (Nat.mod_lt _ (by omega))

/-- The random padding loop emits only safe-alphabet characters. -/
theorem padChars_mem (rand : Nat → Fin 57) (k : Nat) :
    ∀ c ∈ padChars rand k, c ∈ SAFE_ALPHABET.data := by
  intro c hc
  simp only [padChars, List.mem_map] at hc
  obtain ⟨i, _, hi⟩ := hc
  exact hi ▸ safeCharAt_mem _ (rand i).isLt

/-- A base64 digit is never the padding character. -/
theorem b64Char_ne (n : Nat) : b64Char n ≠ '=' := by
  unfold b64Char
  rcases getD_mem_or
      "ABCDEFGHIJKLMNOPQRSTUVWXYZabcdefghijklmnopqrstuvwxyz0123456789+/".data
      n '?' with h | h
  · intro he
    rw [he] at h
    exact absurd h (by decide)
  · rw [h]; decide

/-- The url-safe substitution of a base64 digit is never the padding
character either. -/
theorem b64UrlChar_ne (n : Nat) : b64UrlChar (b64Char n) ≠ '=' := by
  unfold b64UrlChar
  split
  · decide
  · split
    · decide
    · exact b64Char_ne n

/-- Length of a base64url string (padding stripped) in terms of the byte
count. -/
theorem secure_strip_length : ∀ bs : List Nat,
    (((base64Encode bs).map b64UrlChar).filter (fun c => !(c = '='))).length =
      (4 * bs.length + 2) / 3
  | [] => by simp [base64Encode]
  | [b1] => by
    simp [base64Encode, List.filter_cons, b64UrlChar_ne,
      show b64UrlChar '=' = '=' from rfl]
  | [b1, b2] => by
    simp [base64Encode, List.filter_cons, b64UrlChar_ne,
      show b64UrlChar '=' = '=' from rfl]
  | b1 :: b2 :: b3 :: rest => by
    have ih := secure_strip_length rest
    simp [base64Encode, List.filter_cons, b64UrlChar_ne, ih]
    omega

/-! ### C3: generator output alphabet and length -/

/-- C3, counterexample.  The claim states that every code produced by the
random generator used by `shorten` is drawn from the 58-symbol safe
alphabet.  In fact `generateSecureShortCode` (src/config/database.js), the
generator `shortenUrl` actually calls, emits base64url characters: with the
6-byte draw `[208, 0, 0, 0, 0, 0]` (the size drawn for length 7) the code is
`"0AAAAAA"`, which contains the excluded character `0`.  Moreover
`SAFE_ALPHABET` has 57 symbols, not 58. -/
theorem c3_secure_code_alphabet_counterexample :
    (generateSecureShortCode [208, 0, 0, 0, 0, 0] 7).length = 7 ∧
    ¬ (∀ c ∈ (generateSecureShortCode [208, 0, 0, 0, 0, 0] 7).data,
        c ∈ SAFE_ALPHABET.data) ∧
    SAFE_ALPHABET.length ≠ 58 ∧
    [208, 0, 0, 0, 0, 0].length = (3 * 7 + 3) / 4 := by
  decide

/-- C3, amended.  The safe alphabet has 57 symbols.  The nanoid-backed
`generateShortCode` and the content-derived `generateConsistentShortCode`
both return exactly the requested number of characters, all from the safe
alphabet, for every requested length and every random stream.
`generateSecureShortCode` — the generator `shortenUrl` uses — returns
exactly the requested length (given its `ceil(3 len / 4)`-byte random draw)
but over the base64url alphabet instead. -/
theorem c3_generator_alphabet_length (r rand : Nat → Fin 57) (url : String)
    (len : Nat) (bytes : List Nat) (hb : bytes.length = (3 * len + 3) / 4) :
    SAFE_ALPHABET.length = 57 ∧
    (generateShortCode r len).length = len ∧
    (∀ c ∈ (generateShortCode r len).data, c ∈ SAFE_ALPHABET.data) ∧
    (generateConsistentShortCode rand url len).length = len ∧
    (∀ c ∈ (generateConsistentShortCode rand url len).data,
      c ∈ SAFE_ALPHABET.data) ∧
    (generateSecureShortCode bytes len).length = len := by
  have hd := baseDigits_length_le len
    (parseIntHex (String.mk ((md5hex url).data.take 10)))
  refine ⟨rfl, ?_, ?_, ?_, ?_, ?_⟩
  · simp [generateShortCode, String.length]
  · intro c hc
    simp only [generateShortCode, String.mk, List.mem_map,
      List.mem_range] at hc
    obtain ⟨i, _, hi⟩ := hc
    exact hi ▸ safeCharAt_mem _ (r i).isLt
  · simp only [generateConsistentShortCode, String.length, String.mk,
      List.length_take, List.length_append, padChars, List.length_map,
      List.length_reverse, List.length_range]
    omega
  · intro c hc
    simp only [generateConsistentShortCode, String.mk] at hc
    have hc' := List.mem_of_mem_take hc
    rcases List.mem_append.1 hc' with h | h
    · exact padChars_mem _ _ c h
    · exact baseDigits_mem _ _ c h
  · simp only [generateSecureShortCode, String.length, String.mk,
      List.length_take, secure_strip_length, hb]
    omega

/-- C3, witness for the amended theorem at length 7 with a concrete byte
draw. -/
theorem c3_witness :
    SAFE_ALPHABET.length = 57 ∧
    (generateShortCode (fun _ => 0) 7).length = 7 ∧
    (∀ c ∈ (generateShortCode (fun _ => 0) 7).data, c ∈ SAFE_ALPHABET.data) ∧
    (generateConsistentShortCode (fun _ => 0) "https://example.com" 7).length
      = 7 ∧
    (∀ c ∈ (generateConsistentShortCode (fun _ => 0)
        "https://example.com" 7).data, c ∈ SAFE_ALPHABET.data) ∧
    (generateSecureShortCode [255, 255, 255, 10, 20, 30] 7).length = 7 :=
  c3_generator_alphabet_length (fun _ => 0) (fun _ => 0) "https://example.com"
    7 [255, 255, 255, 10, 20, 30] (by decide)

/-! ### C8: determinism of the content-derived generator -/

set_option maxRecDepth 40000 in
/-- C8, counterexample.  The claim states that `deriveFromContent` is
deterministic for every URL and requested length.  At length 8 the 40-bit
digest value of `"https://example.com"` yields only 7 base-conversion
digits, so the leading character comes from `Math.random`: two different
random streams give two different codes for the same arguments. -/
theorem c8_random_padding_counterexample :
    generateConsistentShortCode (fun _ => (0 : Fin 57))
        "https://example.com" 8 ≠
      generateConsistentShortCode (fun _ => (1 : Fin 57))
        "https://example.com" 8 := by
  decide

/-- C8, amended.  `generateConsistentShortCode` is deterministic in
`(url, len)` exactly when the base-conversion of the 40-bit digest value
already fills all `len` characters; in that case the `Math.random` padding
loop is skipped and the result does not depend on the random stream.
(For `len ≥ 8` the 40-bit value can never fill the code, so some padding is
always random.) -/
theorem c8_deterministic_when_digits_fill (url : String) (len : Nat)
    (h : (baseDigits len
        (parseIntHex (String.mk ((md5hex url).data.take 10)))).length = len)
    (r1 r2 : Nat → Fin 57) :
    generateConsistentShortCode r1 url len =
      generateConsistentShortCode r2 url len := by
  simp [generateConsistentShortCode, h, padChars]

set_option maxRecDepth 40000 in
/-- C8, witness: at length 7 the digest of `"https://example.com"` fills all
seven digits, and two unrelated random streams give the same code. -/
theorem c8_witness :
    (baseDigits 7 (parseIntHex
        (String.mk ((md5hex "https://example.com").data.take 10)))).length
      = 7 ∧
    generateConsistentShortCode (fun _ => (0 : Fin 57))
        "https://example.com" 7 =
      generateConsistentShortCode (fun i => ⟨i % 57, Nat.mod_lt _ (by omega)⟩)
        "https://example.com" 7 :=
  ⟨by decide,
    c8_deterministic_when_digits_fill "https://example.com" 7 (by decide) _ _⟩

/-! ### C7: retention purge scope -/

/-- A record that is still active although its expiry passed more than the
retention window ago — the kind of row the purge text targets. -/
def c7Rec : UrlRecord :=
  ⟨1, "https://old.example", "abcdefg", 0, 0, some 0, true, none, none, false⟩

/-- C7.  The retention purge deletes only already-deactivated records —
vacuously so: the DELETE is a PostgreSQL syntax error (`INTERVAL $1`), so
every call throws, no row of any kind is ever deleted, and every record
with `isActive = true` is still present, at its position and unchanged,
after the purge runs. -/
theorem c7_purge_preserves_active_records (now ret : Nat)
    (store : List UrlRecord) :
    (∃ e, (Url.deleteExpiredUrls now ret store).2 = Except.error e) ∧
    (Url.deleteExpiredUrls now ret store).1 = store ∧
    ∀ (i : Nat) (r : UrlRecord), store[i]? = some r → r.is_active = true →
      (Url.deleteExpiredUrls now ret store).1[i]? = some r := by
  refine ⟨⟨_, rfl⟩, rfl, ?_⟩
  intro i r hi _
  exact hi

/-- C7, witness: even the active, long-expired record — the row the broken
DELETE meant to match — is untouched, and the error surfaces. -/
theorem c7_witness :
    (∃ e, (Url.deleteExpiredUrls 2592001 2592000 [c7Rec]).2
      = Except.error e) ∧
    (Url.deleteExpiredUrls 2592001 2592000 [c7Rec]).1 = [c7Rec] ∧
    ∀ (i : Nat) (r : UrlRecord), [c7Rec][i]? = some r →
      r.is_active = true →
      (Url.deleteExpiredUrls 2592001 2592000 [c7Rec]).1[i]? = some r :=
  c7_purge_preserves_active_records 2592001 2592000 [c7Rec]

/-! ### C2: resolving an expired code -/

/-- An expired (at 5) but still-active record, as left behind by a sweep
that has not run yet. -/
def c2Rec : UrlRecord :=
  ⟨1, "https://cached.example", "abc", 0, 0, some 5, true, none, none, false⟩

/-- A state in which the cache still holds a live entry for the expired
code. -/
def c2State : SysState :=
  ⟨[c2Rec], [⟨"abc", "https://cached.example", 100⟩], true⟩

/-- C2, counterexample.  The claim states resolve returns NotFound for an
expired code in every state, including one where the cache still holds the
key.  But the cache-hit path returns the cached URL without any expiry
check: at `now = 10` the record is expired (5 < 10) and still
`resolve "abc"` returns the URL. -/
theorem c2_cache_hit_counterexample :
    c2Rec.expires_at = some 5 ∧ (5 : Nat) < 10 ∧ c2Rec.is_active = true ∧
    Except.map Prod.fst (UrlService.getLongUrl 10 c2State "abc") =
      Except.ok (some "https://cached.example") :=
  ⟨rfl, by omega, rfl, rfl⟩

/-- C2, amended.  When the cache yields no value for the code (miss, or
Redis down), resolving a code whose record is expired returns NotFound even
if the deactivation sweep has not yet run (`is_active` may still be true). -/
theorem c2_expired_miss_notfound (now : Nat) (s : SysState) (code : String)
    (hlen : ¬ code.length < 3)
    (hmiss : (if s.redisReady then redisGet now s.cache code else none) = none)
    (r : UrlRecord) (hfind : Url.findByShortCode s.store code = some r)
    (hexp : expiredStrict now r = true) :
    UrlService.getLongUrl now s code = .ok (none, s) := by
  simp only [UrlService.getLongUrl, if_neg hlen, hmiss,
    UrlService.getLongUrlDb, hfind, hexp, if_true]

/-- The C2 witness state: same expired-but-active record, empty cache. -/
def c2MissState : SysState := ⟨[c2Rec], [], true⟩

/-- C2, witness: on a cache miss the expired, not-yet-swept record resolves
to NotFound. -/
theorem c2_witness :
    (if c2MissState.redisReady then redisGet 10 c2MissState.cache "abc"
      else none) = none ∧
    Url.findByShortCode c2MissState.store "abc" = some c2Rec ∧
    expiredStrict 10 c2Rec = true ∧ c2Rec.is_active = true ∧
    UrlService.getLongUrl 10 c2MissState "abc" = .ok (none, c2MissState) :=
  ⟨rfl, rfl, rfl, rfl,
    c2_expired_miss_notfound 10 c2MissState "abc" (by decide) rfl c2Rec rfl
      rfl⟩

/-! ### C6: no retry on generated-code collision -/

/-- An existing record holding the code that the generator is about to
propose again. -/
def c6Rec : UrlRecord :=
  ⟨1, "https://old.example", "AbCdEfG", 0, 0, none, true, none, none, false⟩

/-- The C6 store: one record with code `"AbCdEfG"`, empty cache. -/
def c6State : SysState := ⟨[c6Rec], [], true⟩

/-- C6, counterexample.  The claim states shorten retries generation until
an unused code is found and never fails because of a collision.  In fact
`shortenUrl` calls the generator once: when the single candidate
`"AbCdEfG"` collides with the stored code, the whole call fails with the
uniqueness-violation error. -/
theorem c6_no_retry_counterexample :
    c6Rec.short_code = "AbCdEfG" ∧
    UrlService.shortenUrl 0 "AbCdEfG" c6State "https://new.example" {} =
      .error "alias already exists" :=
  ⟨rfl, by rfl⟩

/-- C6, amended.  `shortenUrl` makes a single generation attempt: whenever
the candidate produced by `generateSecureShortCode` equals the code of any
stored record (and no dedup hit intervenes), the call fails with
"alias already exists" — there is no retry loop. -/
theorem c6_single_candidate_collision_fails (now : Nat) (gen : String)
    (s : SysState) (url : String) (o : ShortenOptions)
    (ho : o.customAlias = none) (hv : isValidUrl url = true)
    (hm : Url.isUrlMalicious (sanitizeUrl url) = false)
    (hnf : Url.findByLongUrl now s.store (sanitizeUrl url) = none)
    (r : UrlRecord) (hr : r ∈ s.store) (hcode : r.short_code = gen) :
    UrlService.shortenUrl now gen s url o = .error "alias already exists" := by
  have hany : (s.store.any fun r => r.short_code = gen) = true :=
    List.any_eq_true.2 ⟨r, hr, by simp [hcode]⟩
  simp only [UrlService.shortenUrl, hv, hm, ho, hnf, Url.create, hany,
    Bool.not_true, Bool.false_eq_true, if_false, if_true]

/-- C6, witness for the amended theorem at the concrete collision state. -/
theorem c6_witness :
    isValidUrl "https://new.example" = true ∧
    Url.isUrlMalicious (sanitizeUrl "https://new.example") = false ∧
    Url.findByLongUrl 0 c6State.store (sanitizeUrl "https://new.example")
      = none ∧
    c6Rec.short_code = "AbCdEfG" ∧
    UrlService.shortenUrl 0 "AbCdEfG" c6State "https://new.example" {} =
      .error "alias already exists" :=
  ⟨by rfl, by rfl, by rfl, rfl,
    c6_single_candidate_collision_fails 0 "AbCdEfG" c6State
      "https://new.example" {} rfl (by rfl) (by rfl) (by rfl) c6Rec
      (List.mem_singleton.2 rfl) rfl⟩

/-! ### C4: permanent alias uniqueness -/

/-- C4.  A custom alias is rejected with the alias-taken error whenever any
record with that short code exists in the store, active or inactive,
expired or not: `findByShortCode` carries no `is_active` or `expires_at`
filter, so an expired alias is never recycled. -/
theorem c4_alias_taken_permanent (now : Nat) (gen : String) (s : SysState)
    (url ca : String) (o : ShortenOptions) (hca : o.customAlias = some ca)
    (hv : isValidUrl url = true)
    (hm : Url.isUrlMalicious (sanitizeUrl url) = false)
    (hfmt : UrlService.isValidAlias ca = true)
    (hres : UrlService.isReservedAlias ca = false)
    (r : UrlRecord) (hr : r ∈ s.store) (hcode : r.short_code = ca) :
    UrlService.shortenUrl now gen s url o = .error "alias already exists" := by
  have hsome : (Url.findByShortCode s.store ca).isSome :=
    List.find?_isSome.2 ⟨r, hr, by simp [hcode]⟩
  obtain ⟨r', hr'⟩ := Option.isSome_iff_exists.1 hsome
  simp only [UrlService.shortenUrl, hv, hm, hca, hfmt, hres, hr',
    Bool.not_true, Bool.false_eq_true, if_false, Bool.not_false, if_true]

/-- The C4 witness record: the alias `"mylink"` was used by a record that is
by now expired and deactivated. -/
def c4Rec : UrlRecord :=
  ⟨1, "https://x.com", "mylink", 3, 0, some 5, false, none, none, true⟩

/-- The C4 witness state. -/
def c4State : SysState := ⟨[c4Rec], [], true⟩

/-- C4, witness: resubmitting the expired, deactivated alias still fails. -/
theorem c4_witness :
    c4Rec.is_active = false ∧ expiredStrict 100 c4Rec = true ∧
    UrlService.shortenUrl 100 "AbCdEfG" c4State "https://another.example"
        ⟨none, none, some "mylink"⟩ = .error "alias already exists" :=
  ⟨rfl, rfl,
    c4_alias_taken_permanent 100 "AbCdEfG" c4State "https://another.example"
      "mylink" ⟨none, none, some "mylink"⟩ rfl (by decide) (by decide)
      (by decide) (by decide) c4Rec (List.mem_singleton.2 rfl) rfl⟩

/-! ### C5: idempotent shortening -/

/-- C5.  When some active, unexpired record for the normalized URL already
exists, alias-free shortening returns the short code of such a record (the
first one the store lookup yields) and leaves the whole state unchanged —
no new record is created. -/
theorem c5_idempotent_shorten (now : Nat) (gen : String) (s : SysState)
    (url : String) (o : ShortenOptions) (ho : o.customAlias = none)
    (hv : isValidUrl url = true)
    (hm : Url.isUrlMalicious (sanitizeUrl url) = false)
    (hex : ∃ r ∈ s.store, r.long_url = sanitizeUrl url ∧
      r.is_active = true ∧ expiresOk now r = true) :
    ∃ r₀ ∈ s.store, r₀.long_url = sanitizeUrl url ∧ r₀.is_active = true ∧
      expiresOk now r₀ = true ∧
      UrlService.shortenUrl now gen s url o =
        .ok (⟨r₀.short_code, false⟩, s) := by
  obtain ⟨r, hr, hurl, hact, hok⟩ := hex
  have hsome : (Url.findByLongUrl now s.store (sanitizeUrl url)).isSome :=
    List.find?_isSome.2 ⟨r, hr, by simp [hurl, hact, hok]⟩
  obtain ⟨r₀, h₀⟩ := Option.isSome_iff_exists.1 hsome
  have hmem := List.mem_of_find?_eq_some h₀
  have hp := List.find?_some h₀
  simp only [Bool.and_eq_true, decide_eq_true_eq] at hp
  refine ⟨r₀, hmem, hp.1.1, hp.2, hp.1.2, ?_⟩
  simp only [UrlService.shortenUrl, hv, hm, ho, h₀, Bool.not_true,
    Bool.false_eq_true, if_false, Bool.not_false, if_true]

/-- The C5 witness record: an active, unexpired record for the normalized
URL. -/
def c5Rec : UrlRecord :=
  ⟨1, "https://example.com/a", "Existing", 7, 0, some 100, true, none, none,
    false⟩

/-- The C5 witness state. -/
def c5State : SysState := ⟨[c5Rec], [], true⟩

/-- C5, witness: submitting `" example.com/a "` again (which normalizes to
the stored URL) returns the existing code `"Existing"` and leaves the state
unchanged. -/
theorem c5_witness :
    ∃ r₀ ∈ c5State.store,
      r₀.long_url = sanitizeUrl "  example.com/a " ∧ r₀.is_active = true ∧
      expiresOk 10 r₀ = true ∧
      UrlService.shortenUrl 10 "AbCdEfG" c5State "  example.com/a " {} =
        .ok (⟨r₀.short_code, false⟩, c5State) :=
  c5_idempotent_shorten 10 "AbCdEfG" c5State "  example.com/a " {} rfl
    (by decide) (by decide)
    ⟨c5Rec, List.mem_singleton.2 rfl, by decide, rfl, rfl⟩

/-! ### C9: click increment never touches invalid records -/

/-- Store shape of the database branch of resolve: it either leaves the
table unchanged or applies the guarded click increment. -/
theorem getLongUrlDb_store_shape (now : Nat) (s : SysState) (code : String)
    (v : Option String) (s' : SysState)
    (h : UrlService.getLongUrlDb now s code = (v, s')) :
    s'.store = s.store ∨ s'.store = Url.incrementClicks now s.store code := by
  unfold UrlService.getLongUrlDb at h
  split at h
  · injection h with h1 h2; rw [← h2]; exact Or.inl rfl
  · split at h
    · injection h with h1 h2; rw [← h2]; exact Or.inl rfl
    · split at h
      · injection h with h1 h2; rw [← h2]; exact Or.inl rfl
      · injection h with h1 h2; rw [← h2]; exact Or.inr rfl

/-- Store shape of resolve: it either leaves the table unchanged or applies
the guarded click increment (this covers both the cache-hit fire-and-forget
increment and the synchronous database-path increment). -/
theorem getLongUrl_store_shape (now : Nat) (s : SysState) (code : String)
    (v : Option String) (s' : SysState)
    (h : UrlService.getLongUrl now s code = .ok (v, s')) :
    s'.store = s.store ∨ s'.store = Url.incrementClicks now s.store code := by
  unfold UrlService.getLongUrl at h
  split at h
  · exact absurd h (by simp)
  · split at h
    · split at h
      · exact getLongUrlDb_store_shape now s code v s' (Except.ok.inj h)
      · have hp := Except.ok.inj h
        injection hp with h1 h2
        rw [← h2]
        exact Or.inr rfl
    · exact getLongUrlDb_store_shape now s code v s' (Except.ok.inj h)

/-- C9.  The store-level click increment leaves any inactive or expired
record byte-for-byte unchanged (clicks and last_accessed included), and
hence so does every resolve call, through the cache-hit fire-and-forget
path and the database path alike. -/
theorem c9_increment_preserves_invalid_records (now : Nat) (code : String)
    (store : List UrlRecord) (i : Nat) (r : UrlRecord)
    (hi : store[i]? = some r)
    (hcond : r.is_active = false ∨ ∃ e, r.expires_at = some e ∧ e < now) :
    (Url.incrementClicks now store code)[i]? = some r ∧
    ∀ (s s' : SysState) (v : Option String),
      UrlService.getLongUrl now s code = .ok (v, s') →
      s.store = store → s'.store[i]? = some r := by
  have hguard : (r.short_code = code && r.is_active && expiresOk now r)
      = false := by
    rcases hcond with h | ⟨e, he, hlt⟩
    · simp [h]
    · have : expiresOk now r = false := by
        simp only [expiresOk, he, decide_eq_false_iff_not]
        omega
      simp [this]
  have hfix : (Url.incrementClicks now store code)[i]? = some r := by
    simp only [Url.incrementClicks, List.getElem?_map, hi, Option.map_some']
    rw [hguard]
    simp
  refine ⟨hfix, ?_⟩
  intro s s' v heq hst
  rcases getLongUrl_store_shape now s code v s' heq with h | h
  · rw [h, hst]; exact hi
  · rw [h, hst]; exact hfix

/-- The C9 witness record: expired at 5, not yet deactivated. -/
def c9Rec : UrlRecord :=
  ⟨1, "https://x.com", "abcdefg", 5, 0, some 5, true, none, none, false⟩

/-- C9, witness: at `now = 10` the increment leaves the expired record
untouched. -/
theorem c9_witness :
    ([c9Rec])[0]? = some c9Rec ∧
    (∃ e, c9Rec.expires_at = some e ∧ e < 10) ∧
    (Url.incrementClicks 10 [c9Rec] "abcdefg")[0]? = some c9Rec :=
  ⟨rfl, ⟨5, rfl, by omega⟩,
    (c9_increment_preserves_invalid_records 10 "abcdefg" [c9Rec] 0 c9Rec rfl
      (Or.inr ⟨5, rfl, by omega⟩)).1⟩

/-! ### C10: statistics survive expiry -/

/-- C10.  For every nonempty code, `getUrlStats` succeeds and returns
NotFound (none) exactly when no record with that code exists; whenever some
record carries the code — expired or deactivated as it may be — it returns
the snapshot of that record. -/
theorem c10_stats_always_readable (s : SysState) (code : String)
    (hne : code ≠ "") :
    ∃ res, UrlService.getUrlStats s code = .ok res ∧
      ((res = none ∧ ∀ r ∈ s.store, r.short_code ≠ code) ∨
        (∃ r, r ∈ s.store ∧ r.short_code = code ∧
          res = some (Url.statsOf r))) := by
  refine ⟨Url.getStats s.store code, ?_, ?_⟩
  · simp [UrlService.getUrlStats, hne]
  · unfold Url.getStats
    cases hf : s.store.find? (fun r => r.short_code = code) with
    | none =>
      left
      refine ⟨rfl, fun r hr => ?_⟩
      have := List.find?_eq_none.1 hf r hr
      simpa using this
    | some r =>
      right
      exact ⟨r, List.mem_of_find?_eq_some hf,
        by simpa using List.find?_some hf, rfl⟩

/-- The C10 witness record: expired and already deactivated, with click
history. -/
def c10Rec : UrlRecord :=
  ⟨1, "https://x.com", "deadcode", 9, 0, some 5, false, none, some 4, false⟩

/-- The C10 witness state (Redis down, which is irrelevant to stats). -/
def c10State : SysState := ⟨[c10Rec], [], false⟩

/-- C10, witness: the stats of the expired, deactivated record are still
readable. -/
theorem c10_witness :
    ∃ res, UrlService.getUrlStats c10State "deadcode" = .ok res ∧
      ((res = none ∧ ∀ r ∈ c10State.store, r.short_code ≠ "deadcode") ∨
        (∃ r, r ∈ c10State.store ∧ r.short_code = "deadcode" ∧
          res = some (Url.statsOf r))) :=
  c10_stats_always_readable c10State "deadcode" (by decide)


/-! ### C1: shorten / resolve round trip -/

/-- Invariant: no two stored records share a short code (the store UNIQUE
constraint). -/
def NoDupCodes (store : List UrlRecord) : Prop :=
  store.Pairwise fun a b => a.short_code ≠ b.short_code

/-- Invariant: every cache entry mirrors a stored record (entries are only
written through from records, whose URL never changes). -/
def CacheCoherent (s : SysState) : Prop :=
  ∀ e ∈ s.cache, ∃ r ∈ s.store, r.short_code = e.code ∧ r.long_url = e.url

/-- Invariant: every stored code passes the resolve shape check. -/
def CodesLen (store : List UrlRecord) : Prop :=
  ∀ r ∈ store, 3 ≤ r.short_code.length

/-- Two stored records with equal codes coincide. -/
theorem nodup_code_eq {store : List UrlRecord} (hnd : NoDupCodes store)
    {r1 r2 : UrlRecord} (h1 : r1 ∈ store) (h2 : r2 ∈ store)
    (hc : r1.short_code = r2.short_code) : r1 = r2 := by
  induction store with
  | nil => cases h1
  | cons a t ih =>
    have hhead := (List.pairwise_cons.1 hnd).1
    have htail := (List.pairwise_cons.1 hnd).2
    rcases List.mem_cons.1 h1 with rfl | h1t
    · rcases List.mem_cons.1 h2 with rfl | h2t
      · rfl
      · exact absurd hc (hhead r2 h2t)
    · rcases List.mem_cons.1 h2 with rfl | h2t
      · exact absurd hc.symm (hhead r1 h1t)
      · exact ih htail h1t h2t

/-- A normalized URL is never empty. -/
theorem sanitizeUrl_ne_empty (url : String) (hv : isValidUrl url = true) :
    sanitizeUrl url ≠ "" := by
  have hv' := hv
  simp only [isValidUrl, Bool.and_eq_true, Bool.not_eq_true'] at hv'
  have ht : (strTrim url).data ≠ [] := List.isEmpty_eq_false.1 hv'.1
  by_cases hsc : strContains (strTrim url) "://" = true
  · simp only [sanitizeUrl, hsc, if_true]
    intro h
    exact ht (by simpa using congrArg String.data h)
  · simp [sanitizeUrl, hsc]
    intro h
    have hd := congrArg String.data h
    rw [String.data_append] at hd
    have hd' : "https://".data ++ (strTrim url).data = [] := hd
    have h8 := (List.append_eq_nil.1 hd').1
    exact absurd (congrArg List.length h8) (by decide)

/-- The database branch of resolve succeeds on a stored, active, unexpired
record. -/
theorem getLongUrlDb_valid (now : Nat) (s : SysState) (code : String)
    (r : UrlRecord) (hf : Url.findByShortCode s.store code = some r)
    (hact : r.is_active = true)
    (hexp : ∀ e, r.expires_at = some e → now ≤ e) :
    UrlService.getLongUrlDb now s code =
      (some r.long_url,
        { s with store := Url.incrementClicks now s.store code,
                 cache := UrlService.dbCache now s code r }) := by
  have hnex : expiredStrict now r = false := by
    cases hx : r.expires_at with
    | none => simp [expiredStrict, hx]
    | some e =>
      have := hexp e hx
      simp only [expiredStrict, hx, decide_eq_false_iff_not]
      omega
  simp only [UrlService.getLongUrlDb, hf, hnex, hact, Bool.not_true,
    Bool.false_eq_true, if_false]

/-- C1.  Starting from a well-formed state, an alias-free shorten that
returns a code resolves, while that code is still active and unexpired, to
the normalized URL that was stored. -/
theorem c1_shorten_then_resolve_roundtrip
    (s : SysState) (now now2 : Nat) (url : String) (o : ShortenOptions)
    (gen : String) (res : ShortenResult) (s' : SysState)
    (hnd : NoDupCodes s.store) (hcc : CacheCoherent s)
    (hcl : CodesLen s.store) (hgl : 3 ≤ gen.length)
    (ho : o.customAlias = none) (hv : isValidUrl url = true)
    (hm : Url.isUrlMalicious (sanitizeUrl url) = false)
    (hshort : UrlService.shortenUrl now gen s url o = .ok (res, s'))
    (hvalid : ∀ r ∈ s'.store, r.short_code = res.shortCode →
      r.is_active = true ∧ ∀ e, r.expires_at = some e → now2 ≤ e) :
    ∃ s'', UrlService.getLongUrl now2 s' res.shortCode =
      .ok (some (sanitizeUrl url), s'') := by
  have hne := sanitizeUrl_ne_empty url hv
  cases hfind : Url.findByLongUrl now s.store (sanitizeUrl url) with
  | some ex =>
    simp only [UrlService.shortenUrl, hv, hm, ho, hfind, Bool.not_true,
      Bool.false_eq_true, if_false] at hshort
    have hp := Except.ok.inj hshort
    injection hp with h1 h2
    subst h1
    subst h2
    have hmem := List.mem_of_find?_eq_some hfind
    have hprop := List.find?_some hfind
    simp only [Bool.and_eq_true, decide_eq_true_eq] at hprop
    obtain ⟨⟨hurl, hok⟩, hact⟩ := hprop
    have hlen3 : ¬ ex.short_code.length < 3 := by
      have := hcl ex hmem
      omega
    obtain ⟨hact2, hexp2⟩ := hvalid ex hmem rfl
    have hf2 : Url.findByShortCode s.store ex.short_code = some ex := by
      have hsome : (Url.findByShortCode s.store ex.short_code).isSome :=
        List.find?_isSome.2 ⟨ex, hmem, by simp⟩
      obtain ⟨r2, hr2⟩ := Option.isSome_iff_exists.1 hsome
      have hc2 := List.find?_some hr2
      simp only [decide_eq_true_eq] at hc2
      have := nodup_code_eq hnd (List.mem_of_find?_eq_some hr2) hmem hc2
      rw [hr2, this]
    have hdb := getLongUrlDb_valid now2 s ex.short_code ex hf2 hact2 hexp2
    dsimp only at hvalid ⊢
    unfold UrlService.getLongUrl
    rw [if_neg hlen3]
    cases hcache : (if s.redisReady then redisGet now2 s.cache ex.short_code
        else none) with
    | some u =>
      have hu : u = ex.long_url := by
        by_cases hr : s.redisReady
        · rw [if_pos hr] at hcache
          unfold redisGet at hcache
          cases hfe : s.cache.find?
              (fun e => e.code = ex.short_code && now2 < e.expireAt) with
          | none => rw [hfe] at hcache; exact absurd hcache (by simp)
          | some e =>
            rw [hfe] at hcache
            have he := List.mem_of_find?_eq_some hfe
            have hpe := List.find?_some hfe
            simp only [Bool.and_eq_true, decide_eq_true_eq] at hpe
            obtain ⟨rs, hrs, hrc, hru⟩ := hcc e he
            have hre : rs = ex :=
              nodup_code_eq hnd hrs hmem (hrc.trans hpe.1)
            have : e.url = u := by simpa using hcache
            rw [← this, ← hru, hre]
        · rw [if_neg hr] at hcache
          exact absurd hcache (by simp)
      dsimp only
      rw [if_neg (by rw [hu, hurl]; exact hne)]
      rw [hu, hurl]
      exact ⟨_, rfl⟩
    | none =>
      dsimp only
      rw [hdb, hurl]
      exact ⟨_, rfl⟩
  | none =>
    cases hany : s.store.any (fun r => r.short_code = gen) with
    | true =>
      simp only [UrlService.shortenUrl, hv, hm, ho, hfind, Url.create, hany,
        Bool.not_true, Bool.false_eq_true, if_false, if_true] at hshort
      exact absurd hshort (by simp)
    | false =>
      simp only [UrlService.shortenUrl, hv, hm, ho, hfind, Url.create, hany,
        Bool.not_true, Bool.false_eq_true, if_false] at hshort
      have hp := Except.ok.inj hshort
      injection hp with h1 h2
      subst h1
      subst h2
      dsimp only at hvalid ⊢
      set R : UrlRecord :=
        { id := s.store.length + 1, long_url := sanitizeUrl url,
          short_code := gen, clicks := 0, created_at := now,
          expires_at := computeExpiresAt now o.expiresIn, is_active := true,
          creator_ip := o.creatorIp, last_accessed := none,
          is_custom_alias := false } with hR
      have hRurl : R.long_url = sanitizeUrl url := rfl
      have hmemR : R ∈ s.store ++ [R] :=
        List.mem_append_right _ (List.mem_singleton.2 rfl)
      obtain ⟨hact2, hexp2⟩ := hvalid R hmemR rfl
      have hfnone : s.store.find? (fun r => r.short_code = gen) = none := by
        rw [List.find?_eq_none]
        intro x hx hpx
        have hx2 : s.store.any (fun r => r.short_code = gen) = true :=
          List.any_eq_true.2 ⟨x, hx, hpx⟩
        rw [hany] at hx2
        exact absurd hx2 (by simp)
      have hf2 : Url.findByShortCode (s.store ++ [R]) gen = some R := by
        unfold Url.findByShortCode
        rw [List.find?_append, hfnone]
        simp
      have hglen : ¬ gen.length < 3 := by omega
      unfold UrlService.getLongUrl
      rw [if_neg hglen]
      cases hready : s.redisReady with
      | false =>
        simp only [hready, Bool.false_eq_true, if_false]
        have hdb := getLongUrlDb_valid now2
          ⟨s.store ++ [R], s.cache, false⟩ gen R hf2 hact2 hexp2
        rw [hdb, hRurl]
        exact ⟨_, rfl⟩
      | true =>
        simp only [hready, if_true]
        by_cases hb : now2 < now + cacheEx o.expiresIn
        · have hcache : redisGet now2
              (redisSet now s.cache gen (sanitizeUrl url)
                (cacheEx o.expiresIn)) gen = some (sanitizeUrl url) := by
            unfold redisGet redisSet
            simp [List.find?_cons, hb]
          rw [hcache]
          dsimp only
          rw [if_neg hne]
          exact ⟨_, rfl⟩
        · have hfindc : (List.filter (fun e => !(e.code = gen))
              s.cache).find? (fun e => e.code = gen && now2 < e.expireAt)
                = none := by
            rw [List.find?_eq_none]
            intro e he hpe
            have hmf := (List.mem_filter.1 he).2
            simp only [Bool.and_eq_true, decide_eq_true_eq] at hpe
            simp [hpe.1] at hmf
          have hcache : redisGet now2
              (redisSet now s.cache gen (sanitizeUrl url)
                (cacheEx o.expiresIn)) gen = none := by
            unfold redisGet redisSet
            simp [List.find?_cons, hb, hfindc]
          rw [hcache]
          dsimp only
          have hdb := getLongUrlDb_valid now2
            ⟨s.store ++ [R],
              redisSet now s.cache gen (sanitizeUrl url)
                (cacheEx o.expiresIn), true⟩ gen R hf2 hact2 hexp2
          rw [hdb, hRurl]
          exact ⟨_, rfl⟩

/-- The state produced by the C1 witness shorten call: the fresh record and
its write-through cache entry. -/
def c1State1 : SysState :=
  ⟨[⟨1, "https://example.com", "AbCdEfG", 0, 0, none, true, none, none,
      false⟩],
    [⟨"AbCdEfG", "https://example.com", 3600⟩], true⟩

/-- C1, witness: shortening `"https://example.com"` in the empty state with
candidate `"AbCdEfG"` and resolving that code right away returns the
normalized URL. -/
theorem c1_witness :
    ∃ s'', UrlService.getLongUrl 0 c1State1
        (ShortenResult.mk "AbCdEfG" false).shortCode =
      .ok (some (sanitizeUrl "https://example.com"), s'') :=
  c1_shorten_then_resolve_roundtrip ⟨[], [], true⟩ 0 0 "https://example.com"
    {} "AbCdEfG" ⟨"AbCdEfG", false⟩ c1State1
    List.Pairwise.nil
    (fun e he => absurd he (List.not_mem_nil e))
    (fun r hr => absurd hr (List.not_mem_nil r))
    (by decide) rfl (by decide) (by decide) (by rfl)
    (fun r hr hcode => by
      have : r = ⟨1, "https://example.com", "AbCdEfG", 0, 0, none, true,
          none, none, false⟩ := by
        simpa [c1State1] using hr
      subst this
      exact ⟨rfl, fun e he => by cases he⟩)

end UrlShortener
